import Mathlib

/-!
# Verification of the `seri` declarative binary codec

Shallow embedding of `seri/fields.py` and `seri/serializers.py`.

Modelling conventions:
* Python `bytes` values are `List Nat` (each entry one byte, `0 ≤ b < 256`
  where it matters).
* Python `str` values are represented by their cp437 code-unit sequences
  (`List Nat`).  cp437 is a total single-byte codec: every byte decodes to a
  distinct character and encoding that character gives the byte back, so
  `str.encode`/`bytes.decode` are both the identity on this representation
  and decoding never fails.  The null character is code unit `0`.
* Fallible Python code is modelled in `Except PyErr`; the exception kinds
  that can actually be raised by the modelled code are listed in `PyErr`.
* The mutable `length` attribute written by `EncodedLength.deserialize`
  (`self.element_field.length = length`) is modelled by explicit state
  passing: `Field.deserialize` returns the post-call state of the field
  alongside the decoded value and the consumed byte count.
-/

namespace Seri

/-- Python exception kinds raised (or raisable) by the modelled code. -/
inductive PyErr where
  /-- Attribute lookup failed, e.g. `field.deserialize_predicate` when no
      class in `fields.py` defines that attribute. -/
  | attributeError
  /-- `mbs, _ = data.split(b'\0', 1)` unpacking fails when the buffer holds
      no null byte. -/
  | valueError
  /-- `int.to_bytes` with a value outside `[0, 256^length)`. -/
  | overflowError
  /-- A value of the wrong Python type reaches an operation that rejects it
      (collapsing Python's TypeError/AttributeError on such paths). -/
  | typeError
  /-- `fields.ValidationError`, raised by validators. -/
  | validationError
  /-- `attrs[name]` lookup on a missing key in `Serializer.serialize`. -/
  | keyError
deriving DecidableEq, Repr

/-- Python values that flow through the codec: decoded field values and the
    inputs of `serialize`. -/
inductive Value where
  /-- A Python `int`. -/
  | int (n : Int)
  /-- A Python `str`, as its cp437 code-unit sequence. -/
  | str (s : List Nat)
  /-- A Python `bytes`. -/
  | bytes (b : List Nat)
  /-- A Python `list`. -/
  | list (vs : List Value)
  /-- A Python `dict` produced/consumed by a nested serializer. -/
  | record (fs : List (String × Value))

/-- The validator callables occurring in the repository, defunctionalised:
    `file_magic_validator(magic)` from `fields.py`, and the
    `positive_validator` used by the test-suite (raise unless `0 < value`). -/
inductive PyValidator where
  /-- `file_magic_validator(magic)`: raise `ValidationError` unless the value
      equals `magic`. -/
  | fileMagic (magic : List Nat)
  /-- the tests' `positive_validator`: raise `ValidationError` if
      `value <= 0`. -/
  | positive
deriving DecidableEq, Repr

/-- Run a validator on a value; `none` means the validator returned normally,
    `some e` that it raised `e`. -/
def PyValidator.run : PyValidator → Value → Option PyErr
  | .fileMagic magic, v =>
      match v with
      | .bytes b => if b = magic then none else some .validationError
      | _ => some .validationError
  | .positive, v =>
      match v with
      | .int n => if n ≤ 0 then some .validationError else none
      | _ => some .typeError

/-- The field classes of `fields.py`.  Each constructor carries the instance
    attributes of the corresponding class: the mutable `length` where the
    class has one, sub-field references, and the `validator` stored by
    `BaseField.__init__`.
    `UInt8/UInt16/UInt32/UInt64` are `uint 1/2/4/8`; `FixedString(n)` is a
    `DynamicString` whose `length` was set to `n` by `__init__`, so it is
    `dynamicString n`. -/
inductive Field where
  /-- `ByteArray(length)`. -/
  | byteArray (length : Nat) (validator : Option PyValidator)
  /-- `UInt8`/`UInt16`/`UInt32`/`UInt64`: `length` is 1, 2, 4 or 8 until the
      class attribute is shadowed by an injected instance attribute. -/
  | uint (length : Nat) (validator : Option PyValidator)
  /-- `ZString()`. -/
  | zstring (validator : Option PyValidator)
  /-- `DynamicString()` (length 0 until injected) and `FixedString(n)`
      (length n from `__init__`). -/
  | dynamicString (length : Nat) (validator : Option PyValidator)
  /-- `ReverseFixedString(n)`. -/
  | reverseFixedString (length : Nat) (validator : Option PyValidator)
  /-- `DynamicList(element_field)`; `length` is 0 until injected. -/
  | dynamicList (length : Nat) (element : Field) (validator : Option PyValidator)
  /-- `EncodedLength(length_field, element_field)`. -/
  | encodedLength (lengthField : Field) (element : Field) (validator : Option PyValidator)
  /-- `NestedSerializer(serializer)`: the serializer is its ordered field
      list. -/
  | nested (fields : List (String × Field)) (validator : Option PyValidator)

/-- The `validator` attribute stored on every field by `BaseField.__init__`. -/
def Field.validator : Field → Option PyValidator
  | .byteArray _ vd => vd
  | .uint _ vd => vd
  | .zstring vd => vd
  | .dynamicString _ vd => vd
  | .reverseFixedString _ vd => vd
  | .dynamicList _ _ vd => vd
  | .encodedLength _ _ vd => vd
  | .nested _ vd => vd

/-- `BaseField.validate`: `return self.validator(value) if self.validator
    else None`.  A raising validator aborts with its exception. -/
def Field.validate (f : Field) (v : Value) : Except PyErr Unit :=
  match f.validator with
  | none => .ok ()
  | some vd =>
      match vd.run v with
      | none => .ok ()
      | some e => .error e

mutual

/-- Nesting depth of a field: composite fields sit strictly above the fields
    they reference.  Used as the termination measure of the decode/encode
    functions; note it does not depend on any `length` attribute. -/
def Field.depth : Field → Nat
  | .byteArray _ _ => 0
  | .uint _ _ => 0
  | .zstring _ => 0
  | .dynamicString _ _ => 0
  | .reverseFixedString _ _ => 0
  | .dynamicList _ el _ => el.depth + 1
  | .encodedLength lf el _ => max lf.depth el.depth + 1
  | .nested fs _ => Field.fieldsDepth fs + 1

/-- Depth of the deepest field in a serializer's field list. -/
def Field.fieldsDepth : List (String × Field) → Nat
  | [] => 0
  | (_, f) :: rest => max f.depth (Field.fieldsDepth rest)

end

/-- The assignment `self.element_field.length = k` performed by
    `EncodedLength.deserialize`.  For classes whose decode/encode read
    `self.length` the stored length changes; for `ZString`, `EncodedLength`
    and `NestedSerializer` the assignment creates an attribute no method ever
    reads, so it is dropped here. -/
def Field.setLength : Field → Nat → Field
  | .byteArray _ vd, k => .byteArray k vd
  | .uint _ vd, k => .uint k vd
  | .zstring vd, _ => .zstring vd
  | .dynamicString _ vd, k => .dynamicString k vd
  | .reverseFixedString _ vd, k => .reverseFixedString k vd
  | .dynamicList _ el vd, k => .dynamicList k el vd
  | .encodedLength lf el vd, _ => .encodedLength lf el vd
  | .nested fs vd, _ => .nested fs vd

theorem Field.setLength_depth (f : Field) (k : Nat) :
    (f.setLength k).depth = f.depth := by
  cases f <;> simp [Field.setLength, Field.depth]

/-- `int.from_bytes(data, byteorder='little', signed=False)`. -/
def leVal : List Nat → Nat
  | [] => 0
  | b :: rest => b + 256 * leVal rest

/-- `n.to_bytes(length=w, byteorder='little', signed=False)` for an in-range
    `n`. -/
def leBytes : Nat → Nat → List Nat
  | 0, _ => []
  | w + 1, n => n % 256 :: leBytes w (n / 256)

/-- Python `len` on the values that can reach `EncodedLength.serialize`. -/
def Value.pyLen : Value → Except PyErr Nat
  | .str s => .ok s.length
  | .bytes b => .ok b.length
  | .list vs => .ok vs.length
  | .record fs => .ok fs.length
  | .int _ => .error .typeError

/-- A serializer, identified with its ordered `fields` mapping. -/
abbrev Fields := List (String × Field)

/-- The record built by `Serializer.deserialize` / consumed by
    `Serializer.serialize`. -/
abbrev Attrs := List (String × Value)

/-- Type of a `deserialize_predicate` callable: it receives
    `(self, name, field, attrs, data, offset)`. -/
abbrev DeserPred := Fields → String → Field → Attrs → List Nat → Nat → Bool

/-- Type of a `serialize_predicate` callable: it receives
    `(self, name, field, attrs, data)`. -/
abbrev SerPred := Fields → String → Field → Attrs → List Nat → Bool

/-- Lexicographic helper for the termination measures: the first component
    drops. -/
theorem lex3_fst {a a' b b' c c' : Nat} (h : a < a') :
    Prod.Lex (· < ·) (Prod.Lex (· < ·) (· < ·)) (a, b, c) (a', b', c') :=
  Prod.Lex.left _ _ h

/-- Lexicographic helper: first components equal, second drops. -/
theorem lex3_snd {a b b' c c' : Nat} (h : b < b') :
    Prod.Lex (· < ·) (Prod.Lex (· < ·) (· < ·)) (a, b, c) (a, b', c') :=
  Prod.Lex.right _ (Prod.Lex.left _ _ h)

/-- Lexicographic helper: first two components equal, third drops. -/
theorem lex3_trd {a b c c' : Nat} (h : c < c') :
    Prod.Lex (· < ·) (Prod.Lex (· < ·) (· < ·)) (a, b, c) (a, b, c') :=
  Prod.Lex.right _ (Prod.Lex.right _ h)

/-- Lexicographic helper: first component does not grow, second drops. -/
theorem lex3_le_snd {a a' b b' c c' : Nat} (ha : a ≤ a') (hb : b < b') :
    Prod.Lex (· < ·) (Prod.Lex (· < ·) (· < ·)) (a, b, c) (a', b', c') := by
  rcases Nat.lt_or_ge a a' with h | h
  · exact lex3_fst h
  · have : a = a' := Nat.le_antisymm ha h
    subst this
    exact lex3_snd hb

/-- Lexicographic helper: first component does not grow, second equal, third
    drops. -/
theorem lex3_le_trd {a a' b c c' : Nat} (ha : a ≤ a') (hc : c < c') :
    Prod.Lex (· < ·) (Prod.Lex (· < ·) (· < ·)) (a, b, c) (a', b, c') := by
  rcases Nat.lt_or_ge a a' with h | h
  · exact lex3_fst h
  · have : a = a' := Nat.le_antisymm ha h
    subst this
    exact lex3_trd hc

/-- The attribute lookup `field.deserialize_predicate` performed by
    `Serializer.deserialize`.  `BaseField.__init__` stores only
    `self.validator`, and no class in `fields.py` defines a
    `deserialize_predicate` attribute, so this lookup raises
    `AttributeError` for every field instance. -/
def Field.deserPredAttr (_f : Field) : Except PyErr (Option DeserPred) :=
  .error .attributeError

/-- The attribute lookup `field.serialize_predicate` performed by
    `Serializer.serialize`; like `deserialize_predicate` it is defined by no
    class in `fields.py`, so the lookup raises `AttributeError`. -/
def Field.serPredAttr (_f : Field) : Except PyErr (Option SerPred) :=
  .error .attributeError

mutual

/-- The `deserialize` methods of `fields.py`, one match arm per class.
    Returns `(value, consumed, post-call state of the field)`.
    On `encodedLength`, the decoded count is an `int` on every reachable
    path (all integer decodes are non-negative little-endian reads), so the
    injected length is stored as `k.toNat`; a non-`int` count is mapped to
    the `TypeError` Python would raise when the element slices with it. -/
def Field.deserialize (f : Field) (data : List Nat) :
    Except PyErr (Value × Nat × Field) :=
  match f with
  | .byteArray len vd =>
      -- `return data[:self.length], self.length`
      .ok (.bytes (data.take len), len, .byteArray len vd)
  | .uint len vd =>
      -- `return int.from_bytes(data[:self.length], byteorder='little',
      --  signed=False), self.length`
      .ok (.int (leVal (data.take len)), len, .uint len vd)
  | .zstring vd =>
      -- `mbs, _ = data.split(b'\0', 1)` raises ValueError when the buffer
      -- holds no null byte; otherwise `mbs` is the prefix before the first
      -- null and the consumed count is `len(mbs) + 1`
      if 0 ∈ data then
        .ok (.str (data.takeWhile (· ≠ 0)), (data.takeWhile (· ≠ 0)).length + 1,
          .zstring vd)
      else
        .error .valueError
  | .dynamicString len vd =>
      -- `mbs = data[:self.length]; return mbs.decode(...), len(mbs)`
      .ok (.str (data.take len), (data.take len).length, .dynamicString len vd)
  | .reverseFixedString len vd =>
      -- `value, length = super().deserialize(data); value = value[::-1]`
      .ok (.str (data.take len).reverse, (data.take len).length,
        .reverseFixedString len vd)
  | .dynamicList len el vd =>
      match Field.deserializeCount el len data 0 [] with
      | .error e => .error e
      | .ok (elems, offset) => .ok (.list elems, offset, .dynamicList len el vd)
  | .encodedLength lf el vd =>
      -- `length, offset = self.length_field.deserialize(data)`
      match Field.deserialize lf data with
      | .error e => .error e
      | .ok (lenVal, offset, lf') =>
          match lenVal with
          | .int k =>
              -- `self.element_field.length = length`
              -- `element, element_length =
              --    self.element_field.deserialize(data[offset:])`
              match Field.deserialize (el.setLength k.toNat) (data.drop offset) with
              | .error e => .error e
              | .ok (element, elementLength, el') =>
                  .ok (element, offset + elementLength, .encodedLength lf' el' vd)
          | _ => .error .typeError
  | .nested fs vd =>
      -- `return self.serializer.deserialize(data)`
      match Serializer.deserLoop fs fs data [] 0 with
      | .error e => .error e
      | .ok (attrs, offset) => .ok (.record attrs, offset, .nested fs vd)
termination_by (f.depth, 0, 0)
decreasing_by
  · exact lex3_fst (by simp [Field.depth])
  · exact lex3_fst (by simp [Field.depth]; omega)
  · exact lex3_fst (by simp [Field.depth, Field.setLength_depth]; omega)
  · exact lex3_fst (by simp [Field.depth])

/-- The `for _ in range(self.length)` loop of `DynamicList.deserialize`:
    repeatedly decode `element_field` at the running offset, collecting the
    elements and accumulating consumed bytes.  Every length attribute a
    sub-decode reads is written earlier in the same call, so reusing `el`
    for the next iteration returns the same values, consumed counts and
    errors as threading the post-call state would; the loop's effect on the
    element field's state is not observed by any caller modelled here. -/
def Field.deserializeCount (el : Field) (n : Nat) (data : List Nat)
    (offset : Nat) (elems : List Value) : Except PyErr (List Value × Nat) :=
  match n with
  | 0 => .ok (elems, offset)
  | m + 1 =>
      match Field.deserialize el (data.drop offset) with
      | .error e => .error e
      | .ok (element, elementLength, _) =>
          Field.deserializeCount el m data (offset + elementLength)
            (elems ++ [element])
termination_by (el.depth, 1, n)
decreasing_by
  · exact lex3_snd (by omega)
  · exact lex3_trd (by omega)

/-- The field loop of `Serializer.deserialize`.  `self` is the serializer's
    full field list (passed to predicates), `fields` the ones not yet
    processed.  For each field the engine first evaluates the attribute
    lookup `field.deserialize_predicate`, which raises `AttributeError` (see
    `Field.deserPredAttr`); the remainder of the loop body is the faithful
    rendering of the source and is unreachable behind that lookup. -/
def Serializer.deserLoop (self : Fields) (fields : Fields) (data : List Nat)
    (attrs : Attrs) (offset : Nat) : Except PyErr (Attrs × Nat) :=
  match fields with
  | [] => .ok (attrs, offset)
  | (name, field) :: rest =>
      match Field.deserPredAttr field with
      | .error e => .error e
      | .ok pred =>
          if (match pred with
              | none => true
              | some p => p self name field attrs data offset) then
            -- `attrs[name], field_length = field.deserialize(data[offset:])`
            match Field.deserialize field (data.drop offset) with
            | .error e => .error e
            | .ok (v, fieldLength, _) =>
                -- `field.validate(attrs[name])`
                match Field.validate field v with
                | .error e => .error e
                | .ok _ =>
                    -- `offset += field_length`
                    Serializer.deserLoop self rest data (attrs ++ [(name, v)])
                      (offset + fieldLength)
          else
            Serializer.deserLoop self rest data attrs offset
termination_by (Field.fieldsDepth fields, 1, fields.length)
decreasing_by
  · exact lex3_le_snd (by simp [Field.fieldsDepth]) (by omega)
  · exact lex3_le_trd (by simp [Field.fieldsDepth]) (by simp)
  · exact lex3_le_trd (by simp [Field.fieldsDepth]) (by simp)

end

/-- `Serializer.deserialize`: run the field loop with an empty record and
    offset 0. -/
def Serializer.deserialize (fields : Fields) (data : List Nat) :
    Except PyErr (Attrs × Nat) :=
  Serializer.deserLoop fields fields data [] 0

mutual

/-- The `serialize` methods of `fields.py`, one match arm per class.
    Values of a Python type the method cannot process are mapped to
    `typeError` (see `PyErr.typeError`). -/
def Field.serialize (f : Field) (v : Value) : Except PyErr (List Nat) :=
  match f with
  | .byteArray len _ =>
      -- `return obj[:self.length]` — truncation only, no padding branch
      match v with
      | .bytes b => .ok (b.take len)
      | _ => .error .typeError
  | .uint len _ =>
      -- `obj.to_bytes(length=self.length, byteorder='little', signed=False)`
      match v with
      | .int n =>
          if 0 ≤ n ∧ n < (256 : Int) ^ len then .ok (leBytes len n.toNat)
          else .error .overflowError
      | _ => .error .typeError
  | .zstring _ =>
      -- `return obj.encode(STRING_CODEC) + b'\0'` — no embedded-null check
      match v with
      | .str s => .ok (s ++ [0])
      | _ => .error .typeError
  | .dynamicString _ _ =>
      -- `return obj.encode(STRING_CODEC)`
      match v with
      | .str s => .ok s
      | _ => .error .typeError
  | .reverseFixedString _ _ =>
      -- `return super().serialize(obj[::-1])`
      match v with
      | .str s => .ok s.reverse
      | _ => .error .typeError
  | .dynamicList _ el _ =>
      match v with
      | .list vs => Field.serializeElems el vs
      | _ => .error .typeError
  | .encodedLength lf el _ =>
      -- `data = self.length_field.serialize(len(obj))`
      -- `data += self.element_field.serialize(obj)`
      match v.pyLen with
      | .error e => .error e
      | .ok k =>
          match Field.serialize lf (.int k) with
          | .error e => .error e
          | .ok lenData =>
              match Field.serialize el v with
              | .error e => .error e
              | .ok elemData => .ok (lenData ++ elemData)
  | .nested fs _ =>
      -- `return self.serializer.serialize(obj)`
      match v with
      | .record attrs => Serializer.serLoop fs fs attrs []
      | _ => .error .typeError
termination_by (f.depth, 0, 0)
decreasing_by
  · exact lex3_fst (by simp [Field.depth])
  · exact lex3_fst (by simp [Field.depth]; omega)
  · exact lex3_fst (by simp [Field.depth]; omega)
  · exact lex3_fst (by simp [Field.depth])

/-- The `for element in obj` loop of `DynamicList.serialize`, concatenating
    `element_field.serialize(element)` left to right. -/
def Field.serializeElems (el : Field) (vs : List Value) :
    Except PyErr (List Nat) :=
  match vs with
  | [] => .ok []
  | v :: rest =>
      match Field.serialize el v with
      | .error e => .error e
      | .ok d =>
          match Field.serializeElems el rest with
          | .error e => .error e
          | .ok ds => .ok (d ++ ds)
termination_by (el.depth, 1, vs.length)
decreasing_by
  · exact lex3_snd (by omega)
  · exact lex3_trd (by simp)

/-- The field loop of `Serializer.serialize`.  As on the decode side, the
    attribute lookup `field.serialize_predicate` raises `AttributeError`
    before any field is encoded (see `Field.serPredAttr`); the rest of the
    loop body renders the source faithfully. -/
def Serializer.serLoop (self : Fields) (fields : Fields) (attrs : Attrs)
    (dataAcc : List Nat) : Except PyErr (List Nat) :=
  match fields with
  | [] => .ok dataAcc
  | (name, field) :: rest =>
      match Field.serPredAttr field with
      | .error e => .error e
      | .ok pred =>
          if (match pred with
              | none => true
              | some p => p self name field attrs dataAcc) then
            -- `data += field.serialize(attrs[name])`
            match attrs.lookup name with
            | none => .error .keyError
            | some v =>
                match Field.serialize field v with
                | .error e => .error e
                | .ok d => Serializer.serLoop self rest attrs (dataAcc ++ d)
          else
            Serializer.serLoop self rest attrs dataAcc
termination_by (Field.fieldsDepth fields, 1, fields.length)
decreasing_by
  · exact lex3_le_snd (by simp [Field.fieldsDepth]) (by omega)
  · exact lex3_le_trd (by simp [Field.fieldsDepth]) (by simp)
  · exact lex3_le_trd (by simp [Field.fieldsDepth]) (by simp)

end

/-- `Serializer.serialize`: run the field loop with an empty output buffer. -/
def Serializer.serialize (fields : Fields) (attrs : Attrs) :
    Except PyErr (List Nat) :=
  Serializer.serLoop fields fields attrs []

/-- A value bound in a serializer class body: either a `BaseField` instance
    or any other attribute (methods, strings, numbers, ...). -/
inductive PyAttr where
  /-- An attribute that is a `BaseField` instance. -/
  | field (f : Field)
  /-- Any attribute that is not a `BaseField` instance. -/
  | other

/-- `SerializerMeta._get_fields`: keep exactly the class-body attributes that
    are `BaseField` instances, preserving declaration (insertion) order. -/
def SerializerMeta.getFields (attrs : List (String × PyAttr)) : Fields :=
  attrs.filterMap fun a =>
    match a.2 with
    | .field f => some (a.1, f)
    | .other => none

/-- `SerializerMeta.__new__`: `attrs['fields'] = cls._get_fields(attrs)`.
    Its result is the `fields` attribute the new class publishes; the base
    classes (whose own field lists are passed here as `_bases`) are not
    consulted, and because `fields` is always written into the new class's
    namespace, the published list is never inherited from a base. -/
def SerializerMeta.new (_bases : List Fields) (attrs : List (String × PyAttr)) :
    Fields :=
  SerializerMeta.getFields attrs

/-! ## Helper lemmas -/

/-- Splitting at the first null of `s ++ [0]` recovers `s` when `s` itself
    holds no null byte. -/
theorem takeWhile_ne_zero_append (s : List Nat) (h : 0 ∉ s) :
    (s ++ [0]).takeWhile (fun x => !decide (x = 0)) = s := by
  induction s with
  | nil => simp
  | cons a t ih =>
      simp only [List.mem_cons, not_or] at h
      have ha : a ≠ 0 := fun hc => h.1 (hc ▸ rfl)
      rw [List.cons_append, List.takeWhile_cons, if_pos (by simpa using ha),
        ih h.2]

/-! ## Claims -/

/-- C1: the claim states that `Serializer.deserialize` decodes every field
    that carries no presence predicate, so a serializer whose fields have no
    predicate attribute decodes all of them rather than failing.  The code
    contradicts this (and its own test-suite, e.g.
    `test_single_field_serializer`): `BaseField.__init__` stores only
    `self.validator`, no field class defines `deserialize_predicate`, so the
    very first loop iteration of `Serializer.deserialize` aborts with
    `AttributeError` on the attribute lookup — for the repository's own
    single-`UInt8` test schema on input `b'\x2a'`, and in general for every
    serializer with at least one field. -/
theorem C1_serializer_deserialize_raises_attribute_error :
    Serializer.deserialize [("value", .uint 1 none)] [42] =
      .error .attributeError ∧
    ∀ (self : Fields) (name : String) (field : Field) (rest : Fields)
      (data : List Nat) (attrs : Attrs) (offset : Nat),
      Serializer.deserLoop self ((name, field) :: rest) data attrs offset =
        .error .attributeError := by
  constructor
  · simp [Serializer.deserialize, Serializer.deserLoop, Field.deserPredAttr]
  · intro self name field rest data attrs offset
    simp [Serializer.deserLoop, Field.deserPredAttr]

/-- C2: the claim states the round-trip
    `deserialize (serialize v) = (v, |serialize v|)` for every schema and
    constraint-satisfying record.  On the code this fails for every schema
    with at least one field because `Serializer.serialize` aborts with
    `AttributeError` on the `field.serialize_predicate` lookup before
    encoding anything (the repository's own test asserts this very schema
    and record encode to `b'\x2a'` and round-trip). -/
theorem C2_roundtrip_blocked_by_attribute_error :
    Serializer.serialize [("value", .uint 1 none)] [("value", .int 42)] =
      .error .attributeError ∧
    ∀ (self : Fields) (name : String) (field : Field) (rest : Fields)
      (attrs : Attrs) (dataAcc : List Nat),
      Serializer.serLoop self ((name, field) :: rest) attrs dataAcc =
        .error .attributeError := by
  constructor
  · simp [Serializer.serialize, Serializer.serLoop, Field.serPredAttr]
  · intro self name field rest attrs dataAcc
    simp [Serializer.serLoop, Field.serPredAttr]

/-- C3: the claim (and the repository's own test
    `test_serialize_too_short_pads_with_nulls`) states
    `ByteArray(4).serialize(b'\x01\x02') = b'\x01\x02\x00\x00'`.  The code
    (`return obj[:self.length]`) only truncates and never pads: the result
    is `b'\x01\x02'`, two bytes, and in general `serialize` returns
    `obj[:L]` — short inputs stay short. -/
theorem C3_bytearray_serialize_truncates_but_never_pads :
    Field.serialize (.byteArray 4 none) (.bytes [1, 2]) = .ok [1, 2] ∧
    Field.serialize (.byteArray 4 none) (.bytes [1, 2]) ≠ .ok [1, 2, 0, 0] ∧
    ∀ (len : Nat) (b : List Nat) (vd : Option PyValidator),
      Field.serialize (.byteArray len vd) (.bytes b) = .ok (b.take len) := by
  refine ⟨by simp [Field.serialize], by simp [Field.serialize], ?_⟩
  intro len b vd
  simp [Field.serialize]

/-- C4 counterexample: the claim states `ZString.serialize` rejects every
    string containing a null character.  The code performs no such check:
    on the string `"a\x00b"` (cp437 code units `[97, 0, 98]`) serialize
    succeeds, returning `b'a\x00b\x00'`, and deserializing that output
    returns only the prefix `"a"` with 2 consumed bytes — the round-trip the
    claim promises is broken. -/
theorem C4_counterexample :
    Field.serialize (.zstring none) (.str [97, 0, 98]) = .ok [97, 0, 98, 0] ∧
    Field.deserialize (.zstring none) [97, 0, 98, 0] =
      .ok (.str [97], 2, .zstring none) := by
  constructor
  · simp [Field.serialize]
  · simp [Field.deserialize]

/-- C4 (amended): `ZString.serialize` appends exactly one null byte after
    the encoded text for every string value and performs no embedded-null
    check; for values without a null character serialize followed by
    deserialize round-trips (value recovered, consumed = byte length + 1). -/
theorem C4_zstring_appends_single_null :
    ∀ (s : List Nat) (vd : Option PyValidator),
      Field.serialize (.zstring vd) (.str s) = .ok (s ++ [0]) ∧
      (0 ∉ s →
        Field.deserialize (.zstring vd) (s ++ [0]) =
          .ok (.str s, s.length + 1, .zstring vd)) := by
  intro s vd
  refine ⟨by simp [Field.serialize], fun h => ?_⟩
  have hmem : 0 ∈ s ++ [0] := by simp
  simp [Field.deserialize, hmem, takeWhile_ne_zero_append s h]

/-- C4 witness: the amended round-trip at the null-free string `"hi"`
    (cp437 code units `[104, 105]`). -/
theorem C4_witness :
    Field.serialize (.zstring none) (.str [104, 105]) = .ok [104, 105, 0] ∧
    Field.deserialize (.zstring none) [104, 105, 0] =
      .ok (.str [104, 105], 3, .zstring none) :=
  ⟨(C4_zstring_appends_single_null [104, 105] none).1,
    (C4_zstring_appends_single_null [104, 105] none).2 (by decide)⟩

/-- C5 counterexample: the claim states a fixed-size field fails with a
    `TruncatedInputError` on a buffer shorter than its size.  No such error
    exists in the code: `ByteArray(4)` on the 1-byte buffer `b'\x01'`
    returns the short slice `b'\x01'` while still reporting 4 consumed
    bytes, and `UInt8` on the empty buffer returns the integer 0 with 1
    consumed byte. -/
theorem C5_counterexample :
    Field.deserialize (.byteArray 4 none) [1] =
      .ok (.bytes [1], 4, .byteArray 4 none) ∧
    Field.deserialize (.uint 1 none) [] = .ok (.int 0, 1, .uint 1 none) := by
  constructor
  · simp [Field.deserialize]
  · simp [Field.deserialize, leVal]

/-- C5 (amended): on a buffer shorter than the field's size, deserialize
    does not fail: `ByteArray(n)` returns every available byte and still
    reports `n` consumed bytes, and `UIntN` returns the little-endian value
    of the available bytes with its full declared width as consumed
    count. -/
theorem C5_short_input_returned_silently :
    ∀ (n : Nat) (data : List Nat) (vd : Option PyValidator),
      data.length < n →
      Field.deserialize (.byteArray n vd) data =
        .ok (.bytes data, n, .byteArray n vd) ∧
      Field.deserialize (.uint n vd) data =
        .ok (.int (leVal data), n, .uint n vd) := by
  intro n data vd h
  have htake : data.take n = data := List.take_of_length_le (le_of_lt h)
  constructor
  · simp [Field.deserialize, htake]
  · simp [Field.deserialize, htake]

/-- C5 witness: the amended statement at `ByteArray(4)` / `UInt8`-width 4 on
    the 1-byte buffer `b'\x01'`. -/
theorem C5_witness :
    ([1] : List Nat).length < 4 ∧
    Field.deserialize (.byteArray 4 none) [1] =
      .ok (.bytes [1], 4, .byteArray 4 none) ∧
    Field.deserialize (.uint 4 none) [1] =
      .ok (.int (leVal [1]), 4, .uint 4 none) :=
  ⟨by decide, C5_short_input_returned_silently 4 [1] none (by decide)⟩

/-- C6: `EncodedLength.deserialize` first decodes the length field obtaining
    a count `k` and its consumed bytes `offset`, injects `k` into the
    element field's `length` attribute, decodes the element field on the
    remaining buffer `data[offset:]`, and returns the element's value with
    total consumed length `offset + element_length` (and, in the state-passing
    model, the updated sub-field states). -/
theorem C6_encoded_length_consumes_sum :
    ∀ (lf el : Field) (vd : Option PyValidator) (data : List Nat) (k : Int)
      (offset : Nat) (lf' : Field) (v : Value) (elementLength : Nat)
      (el' : Field),
      Field.deserialize lf data = .ok (.int k, offset, lf') →
      Field.deserialize (el.setLength k.toNat) (data.drop offset) =
        .ok (v, elementLength, el') →
      Field.deserialize (.encodedLength lf el vd) data =
        .ok (v, offset + elementLength, .encodedLength lf' el' vd) := by
  intro lf el vd data k offset lf' v elementLength el' h1 h2
  rw [Field.deserialize]
  simp [h1, h2]

/-- C6 witness: `EncodedLength(UInt8(), DynamicString())` on
    `b'\x05hello world'` (the repository's own test input): the length field
    consumes 1 byte yielding 5, the element field consumes 5, total 6. -/
theorem C6_witness :
    Field.deserialize (.uint 1 none) ([5] ++ [104, 101, 108, 108, 111, 32,
        119, 111, 114, 108, 100]) = .ok (.int 5, 1, .uint 1 none) ∧
    Field.deserialize ((Field.dynamicString 0 none).setLength (5 : Int).toNat)
        (([5] ++ [104, 101, 108, 108, 111, 32, 119, 111, 114, 108,
          100]).drop 1) =
      .ok (.str [104, 101, 108, 108, 111], 5, .dynamicString 5 none) ∧
    Field.deserialize
        (.encodedLength (.uint 1 none) (.dynamicString 0 none) none)
        ([5] ++ [104, 101, 108, 108, 111, 32, 119, 111, 114, 108, 100]) =
      .ok (.str [104, 101, 108, 108, 111], 1 + 5,
        .encodedLength (.uint 1 none) (.dynamicString 5 none) none) := by
  refine ⟨?h1, ?h2, ?_⟩
  case h1 => simp [Field.deserialize, leVal]
  case h2 => simp [Field.deserialize, Field.setLength]
  exact C6_encoded_length_consumes_sum (.uint 1 none) (.dynamicString 0 none)
    none _ 5 1 (.uint 1 none) (.str [104, 101, 108, 108, 111]) 5
    (.dynamicString 5 none) (by simp [Field.deserialize, leVal])
    (by simp [Field.deserialize, Field.setLength])

/-- C7: the claim states that after each successfully decoded field the
    engine invokes the field's `validate`, a raised `ValidationError`
    aborting the whole `deserialize` call.  The validate call is present in
    the loop body, but the engine never reaches it: the
    `field.deserialize_predicate` attribute lookup earlier in the same
    iteration raises `AttributeError`, so for a `UInt32` field with the
    test-suite's positive-value validator on input `b'\x00\x00\x00\x00'`
    the call aborts with `AttributeError` and not with the
    `ValidationError` the validator would raise on the decoded value 0. -/
theorem C7_validate_never_reached :
    Serializer.deserialize [("positive_int", .uint 4 (some .positive))]
        [0, 0, 0, 0] = .error .attributeError ∧
    Serializer.deserialize [("positive_int", .uint 4 (some .positive))]
        [0, 0, 0, 0] ≠ .error .validationError ∧
    Field.validate (.uint 4 (some .positive)) (.int 0) =
      .error .validationError := by
  refine ⟨?_, ?_, ?_⟩
  · simp [Serializer.deserialize, Serializer.deserLoop, Field.deserPredAttr]
  · simp [Serializer.deserialize, Serializer.deserLoop, Field.deserPredAttr]
  · simp [Field.validate, Field.validator, PyValidator.run]

/-- C8: `SerializerMeta` collects, in declaration order, exactly the
    class-body attributes that are `BaseField` instances into the new
    class's own `fields` list: the result is independent of the base
    classes, a name/field pair is collected iff it is declared as a field
    in the class body, collected names keep declaration order (they form a
    sublist of the attribute names), and a class declaring no field
    attributes — in particular a derived serializer adding none — publishes
    an empty field list. -/
theorem C8_schema_reflection_own_fields_only :
    ∀ (bases : List Fields) (attrs : List (String × PyAttr)),
      SerializerMeta.new bases attrs = SerializerMeta.new [] attrs ∧
      (∀ (n : String) (f : Field),
        (n, f) ∈ SerializerMeta.new bases attrs ↔
          (n, PyAttr.field f) ∈ attrs) ∧
      List.Sublist ((SerializerMeta.new bases attrs).map Prod.fst)
        (attrs.map Prod.fst) ∧
      ((∀ p ∈ attrs, ∀ f : Field, p.2 ≠ PyAttr.field f) →
        SerializerMeta.new bases attrs = []) := by
  intro bases attrs
  refine ⟨rfl, ?_, ?_, ?_⟩
  · intro n f
    simp only [SerializerMeta.new, SerializerMeta.getFields,
      List.mem_filterMap]
    constructor
    · rintro ⟨⟨m, pa⟩, hmem, hg⟩
      cases pa with
      | field f' =>
          simp only [Option.some.injEq, Prod.mk.injEq] at hg
          obtain ⟨rfl, rfl⟩ := hg
          exact hmem
      | other => simp at hg
    · intro hmem
      exact ⟨(n, PyAttr.field f), hmem, rfl⟩
  · induction attrs with
    | nil => simp [SerializerMeta.new, SerializerMeta.getFields]
    | cons a t ih =>
        obtain ⟨m, pa⟩ := a
        cases pa with
        | field f =>
            simp only [SerializerMeta.new, SerializerMeta.getFields,
              List.filterMap_cons, List.map_cons] at ih ⊢
            exact List.Sublist.cons₂ m ih
        | other =>
            simp only [SerializerMeta.new, SerializerMeta.getFields,
              List.filterMap_cons, List.map_cons] at ih ⊢
            exact List.Sublist.cons m ih
  · intro h
    induction attrs with
    | nil => rfl
    | cons a t ih =>
        obtain ⟨m, pa⟩ := a
        cases pa with
        | field f => exact absurd rfl (h (m, PyAttr.field f) (by simp) f)
        | other =>
            simp only [SerializerMeta.new, SerializerMeta.getFields,
              List.filterMap_cons] at ih ⊢
            exact ih fun p hp => h p (List.mem_cons_of_mem _ hp)

/-- C8 witness: a derived serializer over a base declaring `base_field`
    that itself declares only a non-field attribute publishes an empty
    field list. -/
theorem C8_witness :
    SerializerMeta.new [[("base_field", Field.uint 1 none)]]
      [("doc", PyAttr.other)] = [] := by
  refine (C8_schema_reflection_own_fields_only
    [[("base_field", Field.uint 1 none)]] [("doc", PyAttr.other)]).2.2.2 ?_
  intro p hp f
  simp only [List.mem_singleton] at hp
  subst hp
  simp

/-- C9: `ZString.deserialize` fails (the tuple unpacking of
    `data.split(b'\0', 1)` raises `ValueError`) exactly when the buffer
    holds no null byte; when a null byte is present it returns the decoded
    prefix before the first null with consumed length equal to that
    prefix's byte length plus one. -/
theorem C9_zstring_error_iff_no_null :
    ∀ (data : List Nat) (vd : Option PyValidator),
      (0 ∉ data → Field.deserialize (.zstring vd) data = .error .valueError) ∧
      (0 ∈ data →
        Field.deserialize (.zstring vd) data =
          .ok (.str (data.takeWhile (· ≠ 0)),
            (data.takeWhile (· ≠ 0)).length + 1, .zstring vd)) := by
  intro data vd
  constructor
  · intro h
    simp [Field.deserialize, h]
  · intro h
    simp [Field.deserialize, h]

/-- C9 witness: `b'hi'` (no null byte) raises `ValueError`;
    `b'hi\x00\x07'` decodes to `"hi"` with 3 consumed bytes. -/
theorem C9_witness :
    Field.deserialize (.zstring none) [104, 105] = .error .valueError ∧
    Field.deserialize (.zstring none) [104, 105, 0, 7] =
      .ok (.str [104, 105], 3, .zstring none) := by
  constructor
  · exact (C9_zstring_error_iff_no_null [104, 105] none).1 (by decide)
  · have h := (C9_zstring_error_iff_no_null [104, 105, 0, 7] none).2 (by decide)
    simpa using h

/-- C10: `EncodedLength.deserialize` writes the decoded count into its
    element field's `length` attribute and the write persists after the
    call returns: for a `DynamicString` element with any stored length `s`,
    the returned field state carries length `k` (`s` is gone), a subsequent
    direct `deserialize` of that post-call element field reads `k` bytes
    from any buffer, whereas with the declared default length 0 it would
    read none. -/
theorem C10_injected_length_persists :
    ∀ (lf : Field) (s : Nat) (vd vd2 : Option PyValidator)
      (data data2 : List Nat) (k : Int) (offset : Nat) (lf' : Field),
      Field.deserialize lf data = .ok (.int k, offset, lf') →
      Field.deserialize (.encodedLength lf (.dynamicString s vd2) vd) data =
        .ok (.str ((data.drop offset).take k.toNat),
          offset + ((data.drop offset).take k.toNat).length,
          .encodedLength lf' (.dynamicString k.toNat vd2) vd) ∧
      Field.deserialize (.dynamicString k.toNat vd2) data2 =
        .ok (.str (data2.take k.toNat), (data2.take k.toNat).length,
          .dynamicString k.toNat vd2) ∧
      Field.deserialize (.dynamicString 0 vd2) data2 =
        .ok (.str [], 0, .dynamicString 0 vd2) := by
  intro lf s vd vd2 data data2 k offset lf' h1
  refine ⟨?_, by simp [Field.deserialize], by simp [Field.deserialize]⟩
  rw [Field.deserialize]
  simp [h1, Field.setLength, Field.deserialize]

/-- C10 witness: after `EncodedLength(UInt8(), DynamicString())` decodes
    `b'\x05hello\x20w'`, the element field's length is 5; deserializing the
    returned element field directly on a fresh 7-byte buffer reads 5 bytes,
    while the declared default length 0 reads none. -/
theorem C10_witness :
    Field.deserialize
        (.encodedLength (.uint 1 none) (.dynamicString 0 none) none)
        [5, 104, 101, 108, 108, 111, 32, 119] =
      .ok (.str [104, 101, 108, 108, 111], 6,
        .encodedLength (.uint 1 none) (.dynamicString 5 none) none) ∧
    Field.deserialize (.dynamicString 5 none)
        [97, 98, 99, 100, 101, 102, 103] =
      .ok (.str [97, 98, 99, 100, 101], 5, .dynamicString 5 none) ∧
    Field.deserialize (.dynamicString 0 none)
        [97, 98, 99, 100, 101, 102, 103] =
      .ok (.str [], 0, .dynamicString 0 none) := by
  have h := C10_injected_length_persists (.uint 1 none) 0 none none
    [5, 104, 101, 108, 108, 111, 32, 119] [97, 98, 99, 100, 101, 102, 103]
    5 1 (.uint 1 none) (by simp [Field.deserialize, leVal])
  simpa using h

end Seri
